import Mathlib

/-!
Verification of the mica repository's core decoder and flattener.

This file gives a shallow embedding of the parts of the source that the
checked claims are about:

- `BlendingMode` with its wire codes (`src/procreate/mod.rs`, `from_u32` /
  `to_u32`);
- the tile grid arithmetic (`TilingData` and the `columns` / `rows` / `diff`
  computation in `ProcreateFile::from_ns`), with `u32` wrap-around modelled
  explicitly as arithmetic modulo `2^32`;
- the decoded document model (`SilicaLayer`, `SilicaHierarchy`,
  `SilicaGroup`, `CompositeLayer`);
- the tree flattener `App::linearize_silica_layers` (`src/app.rs` and its
  identical copy `src/gui/app.rs`), where the Rust `unwrap()` of the
  current-mask slot is modelled by returning `none` (the function's result
  type becomes `Option`, `none` standing for the runtime abort);
- the layer-loading pipeline of `ProcreateIRLayer::load` and
  `ProcreateFile::from_ns` (`src/procreate/ir.rs`, `src/procreate/mod.rs`),
  with the shared atomic image-slot counter modelled by explicit state
  passing (the model is sequential; the set of assigned slots is what the
  claims are about and is unchanged by the parallel interleaving).

Effectful against-the-archive steps (keyed-archive `fetch`, tile
decompression, GPU uploads) are modelled by their outcomes: each fallible
step appears as an `Except` value carried in the intermediate-representation
records, so the control flow of the Rust source (which step runs, in which
order, which errors propagate via `?` and which are swallowed via `.ok()`)
is reproduced faithfully.
-/

namespace Mica

/-- Error type of the decoder, after `ProcreateError` in
`src/procreate/mod.rs` (the payloads of the wrapped lower-level errors are
not needed by any claim and are dropped, except for the keyed-archive error
which keeps the offending key). -/
inductive NsArchiveError where
  | MissingKey (key : String)
  | TypeMismatch (key : String)
  deriving DecidableEq, Repr

/-- The `ProcreateError` enum of `src/procreate/mod.rs`. -/
inductive ProcreateError where
  | IoError
  | PlistError
  | ZipError
  | LzoError
  | Lz4Error
  | NsArchiveError (e : NsArchiveError)
  | InvalidValue
  | Unknown
  deriving DecidableEq, Repr

/-- The `BlendingMode` enum of `src/procreate/mod.rs` with its 26 named
values (discriminants 0–17 and 19–26; 18 is absent). -/
inductive BlendingMode where
  | Normal
  | Multiply
  | Screen
  | Add
  | Lighten
  | Exclusion
  | Difference
  | Subtract
  | LinearBurn
  | ColorDodge
  | ColorBurn
  | Overlay
  | HardLight
  | Color
  | Luminosity
  | Hue
  | Saturation
  | SoftLight
  | Darken
  | HardMix
  | VividLight
  | LinearLight
  | PinLight
  | LighterColor
  | DarkerColor
  | Divide
  deriving DecidableEq, Repr

/-- `BlendingMode::from_u32` of `src/procreate/mod.rs`: decode a wire code,
falling through to `ProcreateError::InvalidValue` on every unlisted code
(including 18). -/
def BlendingMode.from_u32 (blend : Nat) : Except ProcreateError BlendingMode :=
  match blend with
  | 0 => .ok .Normal
  | 1 => .ok .Multiply
  | 2 => .ok .Screen
  | 3 => .ok .Add
  | 4 => .ok .Lighten
  | 5 => .ok .Exclusion
  | 6 => .ok .Difference
  | 7 => .ok .Subtract
  | 8 => .ok .LinearBurn
  | 9 => .ok .ColorDodge
  | 10 => .ok .ColorBurn
  | 11 => .ok .Overlay
  | 12 => .ok .HardLight
  | 13 => .ok .Color
  | 14 => .ok .Luminosity
  | 15 => .ok .Hue
  | 16 => .ok .Saturation
  | 17 => .ok .SoftLight
  | 19 => .ok .Darken
  | 20 => .ok .HardMix
  | 21 => .ok .VividLight
  | 22 => .ok .LinearLight
  | 23 => .ok .PinLight
  | 24 => .ok .LighterColor
  | 25 => .ok .DarkerColor
  | 26 => .ok .Divide
  | _ => .error .InvalidValue

/-- `BlendingMode::to_u32` of `src/procreate/mod.rs`: the enum cast
`self as u32`, i.e. the declared discriminant of each variant. -/
def BlendingMode.to_u32 (b : BlendingMode) : Nat :=
  match b with
  | .Normal => 0
  | .Multiply => 1
  | .Screen => 2
  | .Add => 3
  | .Lighten => 4
  | .Exclusion => 5
  | .Difference => 6
  | .Subtract => 7
  | .LinearBurn => 8
  | .ColorDodge => 9
  | .ColorBurn => 10
  | .Overlay => 11
  | .HardLight => 12
  | .Color => 13
  | .Luminosity => 14
  | .Hue => 15
  | .Saturation => 16
  | .SoftLight => 17
  | .Darken => 19
  | .HardMix => 20
  | .VividLight => 21
  | .LinearLight => 22
  | .PinLight => 23
  | .LighterColor => 24
  | .DarkerColor => 25
  | .Divide => 26

/-- The wire codes `BlendingMode::from_u32` accepts, in ascending order. -/
def listedBlendCodes : List Nat :=
  [0, 1, 2, 3, 4, 5, 6, 7, 8, 9, 10, 11, 12, 13, 14, 15, 16, 17,
   19, 20, 21, 22, 23, 24, 25, 26]

/-- The `Size<u32>` record of the source (`ns_archive::Size`), with `u32`
values carried as natural numbers below `2^32`. -/
structure Size where
  width : Nat
  height : Nat
  deriving DecidableEq, Repr

/-- Modulus of `u32` arithmetic. -/
def U32LIM : Nat := 4294967296

/-- Wrapping `u32` addition (release-mode Rust semantics; in a debug build
an overflow aborts instead, which equally falsifies value-level claims at
overflowing inputs). -/
def addW (a b : Nat) : Nat := (a + b) % U32LIM

/-- Wrapping `u32` subtraction; arguments are assumed reduced below
`2^32`. -/
def subW (a b : Nat) : Nat := (a + U32LIM - b) % U32LIM

/-- Wrapping `u32` multiplication. -/
def mulW (a b : Nat) : Nat := (a * b) % U32LIM

/-- The `TilingData` struct of `src/procreate/mod.rs`. -/
structure TilingData where
  columns : Nat
  rows : Nat
  diff : Size
  size : Nat
  deriving DecidableEq, Repr

/-- `TilingData::tile_size` of `src/procreate/mod.rs`: the pixel size of
the tile at `(col, row)`; every column but the last has width `size`, the
last has width `size - diff.width`, and likewise for rows.  The `u32`
subtractions are modelled as wrapping. -/
def TilingData.tile_size (t : TilingData) (col row : Nat) : Size :=
  { width := if col ≠ subW t.columns 1 then t.size else subW t.size t.diff.width,
    height := if row ≠ subW t.rows 1 then t.size else subW t.size t.diff.height }

/-- The construction of `TilingData` inside `ProcreateFile::from_ns`
(`src/procreate/mod.rs` lines 283–296): `columns = (width + tile_size - 1)
/ tile_size`, `rows` likewise, and `diff` the amount the grid overhangs the
canvas.  All `u32` operations are modelled as wrapping. -/
def mkTilingData (size : Size) (tile_size : Nat) : TilingData :=
  let columns := subW (addW size.width tile_size) 1 / tile_size
  let rows := subW (addW size.height tile_size) 1 / tile_size
  { columns := columns,
    rows := rows,
    diff := { width := subW (mulW columns tile_size) size.width,
              height := subW (mulW rows tile_size) size.height },
    size := tile_size }

/-- The `SilicaLayer` struct of `src/procreate/mod.rs`.  `opacity` is an
`f32` in the source; no claim computes with it (it is only copied into
composite records), so it is carried as a rational.  `image` is the `u32`
texture-array slot. -/
structure SilicaLayer where
  blend : BlendingMode
  clipped : Bool
  hidden : Bool
  mask : Option Nat
  name : Option String
  opacity : Rat
  size : Size
  uuid : String
  version : Nat
  image : Nat
  deriving DecidableEq, Repr

/-- The `SilicaHierarchy` enum of `src/procreate/mod.rs`.  The source's
`Group` variant carries a `SilicaGroup { hidden, children, name }` struct;
to keep the type a single nested inductive the three group fields are
inlined into the constructor, in the struct's field order. -/
inductive SilicaHierarchy where
  | Layer (l : SilicaLayer)
  | Group (hidden : Bool) (children : List SilicaHierarchy) (name : Option String)

/-- The `SilicaGroup` struct of `src/procreate/mod.rs` (the root layer
group a document holds and the flattener receives). -/
structure SilicaGroup where
  hidden : Bool
  children : List SilicaHierarchy
  name : Option String

/-- The `CompositeLayer` record produced by the flattener (constructed in
`src/app.rs` lines 120–125): texture slot, optional clip-source slot,
opacity and blend mode of one emitted layer. -/
structure CompositeLayer where
  texture : Nat
  clipped : Option Nat
  opacity : Rat
  blend : BlendingMode
  deriving DecidableEq, Repr

/-- State threaded through the flattener's `inner`: the accumulated
composite records (`Vec::push` appends on the right) and the current mask
slot `Option<(u32, &SilicaLayer)>`. -/
abbrev FlattenState := List CompositeLayer × Option (Nat × SilicaLayer)

/-- The visible-layer arm of the `match` in `App::linearize_silica_layers`
(`src/app.rs` lines 109–126): skip a clipped layer whose current mask layer
is hidden, promote a non-clipped layer to the new mask, and push the
record, whose `clipped` field forces `mask_layer.unwrap()` when the layer
is clipped — `unwrap()` of `None` aborts, modelled as `none`. -/
def visitLayer (layer : SilicaLayer) (s : FlattenState) : Option FlattenState :=
  if (match s.2 with
      | some (_, mask_layer) => layer.clipped && mask_layer.hidden
      | none => false) then
    some s
  else
    let mask := if !layer.clipped then some (layer.image, layer) else s.2
    if layer.clipped then
      match mask with
      | none => none
      | some (m, _) =>
        some (s.1 ++ [⟨layer.image, some m, layer.opacity, layer.blend⟩], mask)
    else some (s.1 ++ [⟨layer.image, none, layer.opacity, layer.blend⟩], mask)

mutual

/-- One child of the `for` loop body of `inner` (`src/app.rs` lines
104–129): visible groups recurse with the mask threaded through, visible
layers go through `visitLayer`, hidden nodes are skipped. -/
def innerChild : SilicaHierarchy → FlattenState → Option FlattenState
  | .Layer l, s => if l.hidden then some s else visitLayer l s
  | .Group ghidden gchildren _, s =>
      if ghidden then some s else innerRev gchildren s

/-- The `for layer in layers.children.iter().rev()` loop of `inner`:
children are visited in reverse serialized order, so the recursion
processes the tail (later siblings) first and the head last. -/
def innerRev : List SilicaHierarchy → FlattenState → Option FlattenState
  | [], s => some s
  | x :: xs, s => (innerRev xs s).bind (innerChild x)

end

/-- `App::linearize_silica_layers` of `src/app.rs` (and the identical copy
in `src/gui/app.rs`): flatten a layer tree into the linear composite list,
starting with an empty record list and no current mask.  The root group's
own `hidden` flag is not consulted, exactly as in the source.  `none`
models the `unwrap()` abort on a clipped layer with no current mask. -/
def App.linearize_silica_layers (layers : SilicaGroup) : Option (List CompositeLayer) :=
  (innerRev layers.children ([], none)).map Prod.fst

/-- `visitLayer` with the hidden-mask skip removed (the first `if let` of
the visible-layer arm deleted); reference point for the dead-code claim. -/
def visitLayerNoCheck (layer : SilicaLayer) (s : FlattenState) : Option FlattenState :=
  let mask := if !layer.clipped then some (layer.image, layer) else s.2
  if layer.clipped then
    match mask with
    | none => none
    | some (m, _) =>
      some (s.1 ++ [⟨layer.image, some m, layer.opacity, layer.blend⟩], mask)
  else some (s.1 ++ [⟨layer.image, none, layer.opacity, layer.blend⟩], mask)

mutual

/-- `innerChild` with `visitLayerNoCheck` in place of `visitLayer`. -/
def innerChildNoCheck : SilicaHierarchy → FlattenState → Option FlattenState
  | .Layer l, s => if l.hidden then some s else visitLayerNoCheck l s
  | .Group ghidden gchildren _, s =>
      if ghidden then some s else innerRevNoCheck gchildren s

/-- `innerRev` with the hidden-mask check removed throughout. -/
def innerRevNoCheck : List SilicaHierarchy → FlattenState → Option FlattenState
  | [], s => some s
  | x :: xs, s => (innerRevNoCheck xs s).bind (innerChildNoCheck x)

end

/-- The flattener without the hidden-mask check. -/
def linearizeNoHiddenMaskCheck (layers : SilicaGroup) : Option (List CompositeLayer) :=
  (innerRevNoCheck layers.children ([], none)).map Prod.fst

/-- Decidable equality for `Except`, needed to decide equalities of the
intermediate-representation records on concrete inputs. -/
instance {ε α : Type} [DecidableEq ε] [DecidableEq α] : DecidableEq (Except ε α) := fun x y =>
  match x, y with
  | .ok a, .ok b =>
    if h : a = b then isTrue (by rw [h]) else isFalse (fun hh => h (Except.ok.inj hh))
  | .error a, .error b =>
    if h : a = b then isTrue (by rw [h]) else isFalse (fun hh => h (Except.error.inj hh))
  | .ok _, .error _ => isFalse (fun hh => Except.noConfusion hh)
  | .error _, .ok _ => isFalse (fun hh => Except.noConfusion hh)

/-- The per-layer decode inputs of `ProcreateIRLayer::load`
(`src/procreate/ir.rs` lines 51–126), with each fallible interaction with
the archive carried as its outcome: `uuidFetch` is the result of
`fetch::<String>(coder, "UUID")`, `tiles` the collected result of the
parallel tile-decode loop, `extendedBlend` the optional
`fetch::<Option<u32>>(coder, "extendedBlend")` value and `blend` the
`fetch::<u32>(coder, "blend")` fallback.  The remaining scalar fetches
(`clipped`, `hidden`, `name`, `opacity`, `version`) are carried as their
fetched values. -/
structure IRLayerData where
  uuidFetch : Except NsArchiveError String
  tiles : Except ProcreateError Unit
  extendedBlend : Option Nat
  blend : Nat
  clipped : Bool
  hidden : Bool
  name : Option String
  opacity : Rat
  version : Nat
  deriving DecidableEq, Repr

/-- The intermediate layer tree decoded from `unwrappedLayers`
(`ProcreateIRHierarchy` of `src/procreate/ir.rs`); a group node carries the
results of its `isHidden` and `name` fetches and its children. -/
inductive IRHierarchy where
  | Layer (d : IRLayerData)
  | Group (isHidden : Bool) (name : Option String) (children : List IRHierarchy)

/-- The effective blend code of a layer dictionary:
`fetch::<Option<u32>>(coder, "extendedBlend").transpose().unwrap_or_else(||
fetch::<u32>(coder, "blend"))` — the `extendedBlend` value when the key is
present, the `blend` value otherwise (`src/procreate/ir.rs` lines
111–114). -/
def effectiveBlendCode (extendedBlend : Option Nat) (blend : Nat) : Nat :=
  match extendedBlend with
  | some x => x
  | none => blend

/-- `ProcreateIRLayer::load` of `src/procreate/ir.rs`: fetch the UUID,
claim the next image slot from the shared counter (`fetch_add` returns the
pre-increment value), decode and upload every tile, then decode the scalar
fields, the blend mode through `BlendingMode::from_u32` of the effective
blend code.  The counter is state-passed; it stays incremented even when a
later step fails, exactly as with the source's atomic. -/
def ProcreateIRLayer.load (docSize : Size) (d : IRLayerData) (counter : Nat) :
    Except ProcreateError SilicaLayer × Nat :=
  match d.uuidFetch with
  | .error e => (.error (.NsArchiveError e), counter)
  | .ok uuid =>
    let image := counter
    let counter' := counter + 1
    match d.tiles with
    | .error e => (.error e, counter')
    | .ok _ =>
      match BlendingMode.from_u32 (effectiveBlendCode d.extendedBlend d.blend) with
      | .error e => (.error e, counter')
      | .ok blend =>
        (.ok { blend := blend, clipped := d.clipped, hidden := d.hidden,
               mask := none, name := d.name, opacity := d.opacity,
               size := docSize, uuid := uuid, version := d.version,
               image := image }, counter')

mutual

/-- `ProcreateIRHierarchy::count_layer` of `src/procreate/ir.rs`: a layer
counts 1, a group the sum over its children. -/
def IRHierarchy.count_layer : IRHierarchy → Nat
  | .Layer _ => 1
  | .Group _ _ children => countLayerList children

/-- Sum of `count_layer` over a child list. -/
def countLayerList : List IRHierarchy → Nat
  | [] => 0
  | x :: xs => x.count_layer + countLayerList xs

end

mutual

/-- `ProcreateIRHierarchy::load` of `src/procreate/ir.rs`: layers through
`ProcreateIRLayer::load`, groups by loading all children. -/
def IRHierarchy.load (docSize : Size) : IRHierarchy → Nat →
    Except ProcreateError SilicaHierarchy × Nat
  | .Layer d, c =>
    match ProcreateIRLayer.load docSize d c with
    | (.error e, c') => (.error e, c')
    | (.ok l, c') => (.ok (.Layer l), c')
  | .Group ghidden gname children, c =>
    match loadList docSize children c with
    | (.error e, c') => (.error e, c')
    | (.ok hs, c') => (.ok (.Group ghidden hs gname), c')

/-- `ProcreateIRGroup::load`'s `children.into_par_iter().map(load).collect
::<Result<_,_>>()`, modelled sequentially: the collected result is the
same, and the counter values the layers draw form the same set under any
interleaving of the `fetch_add`s. -/
def loadList (docSize : Size) : List IRHierarchy → Nat →
    Except ProcreateError (List SilicaHierarchy) × Nat
  | [], c => (.ok [], c)
  | x :: xs, c =>
    match IRHierarchy.load docSize x c with
    | (.error e, c') => (.error e, c')
    | (.ok h, c') =>
      match loadList docSize xs c' with
      | (.error e, c'') => (.error e, c'')
      | (.ok hs, c'') => (.ok (h :: hs), c'')

end

/-- The decoded document, reduced to the fields the claims are about
(`ProcreateFile` of `src/procreate/mod.rs`; the scalar attributes and the
GPU texture handle play no role in any claim). -/
structure ProcreateFile where
  composite : Option SilicaLayer
  layers : SilicaGroup

/-- The `.ok()` applied to the composite layer's load result in
`ProcreateFile::from_ns`: keep `Some` only on success. -/
def compositeOf (compositeRes : Except ProcreateError SilicaLayer) :
    Option SilicaLayer :=
  match compositeRes with
  | .ok l => some l
  | .error _ => none

/-- The struct-literal step of `ProcreateFile::from_ns` (factored out of
`from_ns` below): the `layers` field (`collect::<Result<_, _>>()?`)
propagates its error, while the `composite` field keeps `Some` only when
its load succeeded. -/
def assembleDoc (compositeRes : Except ProcreateError SilicaLayer)
    (layersRes : Except ProcreateError (List SilicaHierarchy)) :
    Except ProcreateError ProcreateFile :=
  match layersRes with
  | .error e => .error e
  | .ok children =>
    .ok { composite := compositeOf compositeRes,
          layers := { hidden := false, children := children,
                      name := some "Root Layer" } }

/-- The document-assembly tail of `ProcreateFile::from_ns`
(`src/procreate/mod.rs` lines 322–360), parametric in the outcome of
`nka.fetch::<ProcreateIRLayer>(root, "composite")` and in the decoded
`unwrappedLayers` tree.  Rust evaluates the struct literal's fields in
written order, so the `composite` field — `fetch(...)?.load(&ir_data).ok()`
— runs before the `layers` field, both drawing slots from the counter
started at 0.  The `?` on the fetch propagates its error; only the
`.ok()` on the load swallows. -/
def ProcreateFile.from_ns (docSize : Size)
    (compositeFetch : Except NsArchiveError IRLayerData)
    (unwrappedLayers : List IRHierarchy) : Except ProcreateError ProcreateFile :=
  match compositeFetch with
  | .error e => .error (.NsArchiveError e)
  | .ok irc =>
    assembleDoc (ProcreateIRLayer.load docSize irc 0).1
      (loadList docSize unwrappedLayers (ProcreateIRLayer.load docSize irc 0).2).1

mutual

/-- The image slots of the layers of one node, in traversal order. -/
def slotsH : SilicaHierarchy → List Nat
  | .Layer l => [l.image]
  | .Group _ children _ => slotsList children

/-- The image slots of the layers under a child list. -/
def slotsList : List SilicaHierarchy → List Nat
  | [] => []
  | x :: xs => slotsH x ++ slotsList xs

end

mutual

/-- All per-layer decode inputs occurring in one IR node. -/
def layerDatasH : IRHierarchy → List IRLayerData
  | .Layer d => [d]
  | .Group _ _ children => layerDatasList children

/-- All per-layer decode inputs occurring under an IR child list. -/
def layerDatasList : List IRHierarchy → List IRLayerData
  | [] => []
  | x :: xs => layerDatasH x ++ layerDatasList xs

end

/-- Invariant on the flattener's mask slot: whatever layer is stored in it
is not hidden. -/
def maskOk (m : Option (Nat × SilicaLayer)) : Prop :=
  ∀ p, m = some p → p.2.hidden = false

/-- A visible non-clipped layer (the would-be mask `A` of spec scenario 3),
serialized first in its group. -/
def layerAex : SilicaLayer :=
  ⟨.Normal, false, false, none, none, 1, ⟨128, 128⟩, "aaaa", 1, 10⟩

/-- A visible clipped layer (`B` of spec scenario 3). -/
def layerBex : SilicaLayer :=
  ⟨.Multiply, true, false, none, none, 1, ⟨128, 128⟩, "bbbb", 1, 11⟩

/-- A visible clipped layer (`C` of spec scenario 3). -/
def layerCex : SilicaLayer :=
  ⟨.Screen, true, false, none, none, 1, ⟨128, 128⟩, "cccc", 1, 12⟩

/-- A visible clipped layer visited with no current mask anywhere. -/
def clippedNoMaskLayer : SilicaLayer :=
  ⟨.Normal, true, false, none, none, 1, ⟨128, 128⟩, "dddd", 1, 0⟩

/-- Document size shared by the concrete examples. -/
def docSizeEx : Size := ⟨128, 128⟩

/-- Decode inputs of a composite flat-layer whose every step succeeds
(blend code 0). -/
def irCompositeEx : IRLayerData :=
  ⟨.ok "eeee", .ok (), none, 0, false, false, none, 1, 1⟩

/-- Decode inputs of an ordinary tree layer whose every step succeeds
(blend code 1). -/
def irLayerEx : IRLayerData :=
  ⟨.ok "ffff", .ok (), none, 1, false, false, none, 1, 2⟩

/-- Decode inputs of a layer whose UUID fetch succeeds (so it claims an
image slot) but whose tile decode fails. -/
def irFailTilesLayer : IRLayerData :=
  ⟨.ok "gggg", .error .LzoError, none, 0, false, false, none, 1, 1⟩

/-- The `SilicaLayer` that `ProcreateIRLayer.load` produces from
`irCompositeEx` at counter 0. -/
def compositeLoadedEx : SilicaLayer :=
  ⟨.Normal, false, false, none, none, 1, docSizeEx, "eeee", 1, 0⟩

/-- The `SilicaLayer` that `ProcreateIRLayer.load` produces from
`irLayerEx` at counter 1. -/
def layerLoadedEx : SilicaLayer :=
  ⟨.Multiply, false, false, none, none, 1, docSizeEx, "ffff", 2, 1⟩

/-! ## Loader lemmas -/

theorem load_layer_ok (sz : Size) (d : IRLayerData) (c : Nat) (l : SilicaLayer)
    (h : (ProcreateIRLayer.load sz d c).1 = .ok l) :
    l.image = c ∧ (ProcreateIRLayer.load sz d c).2 = c + 1 ∧
      BlendingMode.from_u32 (effectiveBlendCode d.extendedBlend d.blend) = .ok l.blend := by
  unfold ProcreateIRLayer.load at h ⊢
  generalize hu : d.uuidFetch = ur at h ⊢
  rcases ur with e | u
  · simp at h
  · generalize ht : d.tiles = tr at h ⊢
    rcases tr with e | u'
    · simp at h
    · generalize hb : BlendingMode.from_u32 (effectiveBlendCode d.extendedBlend d.blend) = br at h ⊢
      rcases br with e | b
      · simp at h
      · have h' : Except.ok (ε := ProcreateError)
            ({ blend := b, clipped := d.clipped, hidden := d.hidden, mask := none,
               name := d.name, opacity := d.opacity, size := sz, uuid := u,
               version := d.version, image := c } : SilicaLayer) = .ok l := h
        injection h' with h'
        subst h'
        exact ⟨rfl, rfl, rfl⟩

theorem load_layer_counter (sz : Size) (d : IRLayerData) (c : Nat) :
    (ProcreateIRLayer.load sz d c).2 = c ∨ (ProcreateIRLayer.load sz d c).2 = c + 1 := by
  unfold ProcreateIRLayer.load
  generalize d.uuidFetch = ur
  rcases ur with e | u
  · left; rfl
  · generalize d.tiles = tr
    rcases tr with e | u'
    · right; rfl
    · generalize BlendingMode.from_u32 (effectiveBlendCode d.extendedBlend d.blend) = br
      rcases br with e | b
      · right; rfl
      · right; rfl

mutual

theorem load_slots (sz : Size) (x : IRHierarchy) (c : Nat) (res : SilicaHierarchy) (c' : Nat)
    (h : IRHierarchy.load sz x c = (.ok res, c')) :
    slotsH res = List.range' c x.count_layer ∧ c' = c + x.count_layer := by
  match x with
  | .Layer d =>
    have hstep : IRHierarchy.load sz (.Layer d) c =
        (match ProcreateIRLayer.load sz d c with
         | (.error e, c2) => (.error e, c2)
         | (.ok l, c2) => (.ok (.Layer l), c2)) := rfl
    rw [hstep] at h
    generalize hp : ProcreateIRLayer.load sz d c = pr at h
    rcases pr with ⟨r, c2⟩
    rcases r with e | l
    · simp at h
    · simp only [Prod.mk.injEq, Except.ok.injEq] at h
      obtain ⟨h1, h2⟩ := h
      subst h1
      subst h2
      have hok : (ProcreateIRLayer.load sz d c).1 = .ok l := by rw [hp]
      have hc2 := (load_layer_ok sz d c l hok).2.1
      rw [hp] at hc2
      constructor
      · show [l.image] = List.range' c 1
        rw [(load_layer_ok sz d c l hok).1]
        rfl
      · exact hc2
  | .Group ghidden gname children =>
    have hstep : IRHierarchy.load sz (.Group ghidden gname children) c =
        (match loadList sz children c with
         | (.error e, c2) => (.error e, c2)
         | (.ok hs, c2) => (.ok (.Group ghidden hs gname), c2)) := rfl
    rw [hstep] at h
    generalize hp : loadList sz children c = pr at h
    rcases pr with ⟨r, c2⟩
    rcases r with e | hs
    · simp at h
    · simp only [Prod.mk.injEq, Except.ok.injEq] at h
      obtain ⟨h1, h2⟩ := h
      subst h1
      subst h2
      exact loadList_slots sz children c hs c2 hp

theorem loadList_slots (sz : Size) (xs : List IRHierarchy) (c : Nat)
    (res : List SilicaHierarchy) (c' : Nat)
    (h : loadList sz xs c = (.ok res, c')) :
    slotsList res = List.range' c (countLayerList xs) ∧ c' = c + countLayerList xs := by
  match xs with
  | [] =>
    have h' : ((.ok [] : Except ProcreateError (List SilicaHierarchy)), c) = (.ok res, c') := h
    simp only [Prod.mk.injEq, Except.ok.injEq] at h'
    obtain ⟨h1, h2⟩ := h'
    subst h1
    subst h2
    exact ⟨rfl, rfl⟩
  | x :: xs =>
    have hstep : loadList sz (x :: xs) c =
        (match IRHierarchy.load sz x c with
         | (.error e, c2) => (.error e, c2)
         | (.ok h1, c2) =>
           match loadList sz xs c2 with
           | (.error e, c3) => (.error e, c3)
           | (.ok hs, c3) => (.ok (h1 :: hs), c3)) := rfl
    rw [hstep] at h
    generalize hx : IRHierarchy.load sz x c = pr1 at h
    rcases pr1 with ⟨r1, c2⟩
    rcases r1 with e | h1
    · simp at h
    · replace h : (match loadList sz xs c2 with
          | (.error e, c3) => ((.error e : Except ProcreateError (List SilicaHierarchy)), c3)
          | (.ok hs, c3) => (.ok (h1 :: hs), c3)) = (.ok res, c') := h
      rcases hrest : loadList sz xs c2 with ⟨r2, c3⟩
      rw [hrest] at h
      rcases r2 with e | hs
      · simp at h
      · simp only [Prod.mk.injEq, Except.ok.injEq] at h
        obtain ⟨hh, hc⟩ := h
        subst hh
        subst hc
        obtain ⟨hsl1, hc2⟩ := load_slots sz x c h1 c2 hx
        obtain ⟨hsl2, hc3⟩ := loadList_slots sz xs c2 hs c3 hrest
        constructor
        · show slotsH h1 ++ slotsList hs = List.range' c (x.count_layer + countLayerList xs)
          rw [hsl1, hsl2, hc2, Nat.add_comm x.count_layer (countLayerList xs)]
          exact List.range'_append_1 c x.count_layer (countLayerList xs)
        · show c3 = c + (x.count_layer + countLayerList xs)
          rw [hc3, hc2, Nat.add_assoc]

end

mutual

theorem load_blend_listed (sz : Size) (x : IRHierarchy) (c : Nat) (res : SilicaHierarchy)
    (c' : Nat) (h : IRHierarchy.load sz x c = (.ok res, c')) :
    ∀ d ∈ layerDatasH x,
      ∃ b, BlendingMode.from_u32 (effectiveBlendCode d.extendedBlend d.blend) = .ok b := by
  match x with
  | .Layer d0 =>
    intro d hd
    have hd0 : d = d0 := by simpa [layerDatasH] using hd
    subst hd0
    have hstep : IRHierarchy.load sz (.Layer d) c =
        (match ProcreateIRLayer.load sz d c with
         | (.error e, c2) => (.error e, c2)
         | (.ok l, c2) => (.ok (.Layer l), c2)) := rfl
    rw [hstep] at h
    generalize hp : ProcreateIRLayer.load sz d c = pr at h
    rcases pr with ⟨r, c2⟩
    rcases r with e | l
    · simp at h
    · have hok : (ProcreateIRLayer.load sz d c).1 = .ok l := by rw [hp]
      exact ⟨l.blend, (load_layer_ok sz d c l hok).2.2⟩
  | .Group ghidden gname children =>
    intro d hd
    have hd' : d ∈ layerDatasList children := by simpa [layerDatasH] using hd
    have hstep : IRHierarchy.load sz (.Group ghidden gname children) c =
        (match loadList sz children c with
         | (.error e, c2) => (.error e, c2)
         | (.ok hs, c2) => (.ok (.Group ghidden hs gname), c2)) := rfl
    rw [hstep] at h
    generalize hp : loadList sz children c = pr at h
    rcases pr with ⟨r, c2⟩
    rcases r with e | hs
    · simp at h
    · exact loadList_blend_listed sz children c hs c2 hp d hd'

theorem loadList_blend_listed (sz : Size) (xs : List IRHierarchy) (c : Nat)
    (res : List SilicaHierarchy) (c' : Nat)
    (h : loadList sz xs c = (.ok res, c')) :
    ∀ d ∈ layerDatasList xs,
      ∃ b, BlendingMode.from_u32 (effectiveBlendCode d.extendedBlend d.blend) = .ok b := by
  match xs with
  | [] =>
    intro d hd
    simp [layerDatasList] at hd
  | x :: xs =>
    intro d hd
    have hstep : loadList sz (x :: xs) c =
        (match IRHierarchy.load sz x c with
         | (.error e, c2) => (.error e, c2)
         | (.ok h1, c2) =>
           match loadList sz xs c2 with
           | (.error e, c3) => (.error e, c3)
           | (.ok hs, c3) => (.ok (h1 :: hs), c3)) := rfl
    rw [hstep] at h
    generalize hx : IRHierarchy.load sz x c = pr1 at h
    rcases pr1 with ⟨r1, c2⟩
    rcases r1 with e | h1
    · simp at h
    · replace h : (match loadList sz xs c2 with
          | (.error e, c3) => ((.error e : Except ProcreateError (List SilicaHierarchy)), c3)
          | (.ok hs, c3) => (.ok (h1 :: hs), c3)) = (.ok res, c') := h
      rcases hrest : loadList sz xs c2 with ⟨r2, c3⟩
      rw [hrest] at h
      rcases r2 with e | hs
      · simp at h
      · have hd' : d ∈ layerDatasH x ∨ d ∈ layerDatasList xs := by
          have hmem : d ∈ layerDatasH x ++ layerDatasList xs := hd
          exact List.mem_append.1 hmem
        rcases hd' with hmem | hmem
        · exact load_blend_listed sz x c h1 c2 hx d hmem
        · exact loadList_blend_listed sz xs c2 hs c3 hrest d hmem

end

theorem assembleDoc_ok (cr : Except ProcreateError SilicaLayer)
    (lr : Except ProcreateError (List SilicaHierarchy)) (doc : ProcreateFile)
    (h : assembleDoc cr lr = .ok doc) :
    ∃ children, lr = .ok children ∧
      doc.layers = ⟨false, children, some "Root Layer"⟩ ∧
      doc.composite = compositeOf cr := by
  rcases lr with e | children
  · have hstep : assembleDoc cr (.error e) = .error e := rfl
    rw [hstep] at h
    cases h
  · have hstep : assembleDoc cr (.ok children) =
        .ok (⟨compositeOf cr, ⟨false, children, some "Root Layer"⟩⟩ : ProcreateFile) := rfl
    rw [hstep] at h
    injection h with h2
    exact ⟨children, rfl, by rw [← h2], by rw [← h2]⟩

theorem from_ns_ok (sz : Size) (cf : Except NsArchiveError IRLayerData)
    (tree : List IRHierarchy) (doc : ProcreateFile)
    (h : ProcreateFile.from_ns sz cf tree = .ok doc) :
    ∃ irc, cf = .ok irc ∧
      ∃ children,
        (loadList sz tree (ProcreateIRLayer.load sz irc 0).2).1 = .ok children ∧
        doc.layers = ⟨false, children, some "Root Layer"⟩ ∧
        doc.composite = compositeOf (ProcreateIRLayer.load sz irc 0).1 := by
  rcases cf with e | irc
  · have hstep : ProcreateFile.from_ns sz (.error e) tree =
        .error (.NsArchiveError e) := rfl
    rw [hstep] at h
    cases h
  · have hstep : ProcreateFile.from_ns sz (.ok irc) tree =
        assembleDoc (ProcreateIRLayer.load sz irc 0).1
          (loadList sz tree (ProcreateIRLayer.load sz irc 0).2).1 := rfl
    rw [hstep] at h
    exact ⟨irc, rfl, assembleDoc_ok _ _ _ h⟩

/-! ## Blend-mode claims -/

/-- C10: for every `BlendingMode` value `b`,
`BlendingMode::from_u32(b.to_u32()) = Ok(b)` — the numeric wire encoding of
blend modes round-trips through decode. -/
theorem C10_blend_code_roundtrip (b : BlendingMode) :
    BlendingMode.from_u32 b.to_u32 = .ok b := by
  cases b <;> rfl

/-- C4 counterexample: `BlendingMode::from_u32` succeeds on 26 wire codes,
not 25 — the claim's count of the listed codes is off by one (the §6 table
itself lists 26 entries). -/
theorem C4_counterexample :
    ((List.range 27).filter (fun n => (BlendingMode.from_u32 n).isOk)).length = 26 ∧
    (26 : Nat) ≠ 25 := by
  constructor
  · decide
  · decide

/-- C4 (amended): `BlendingMode::from_u32` succeeds exactly on the 26
listed wire codes, with the listed name-to-code mapping (witnessed by
`to_u32` mapping each decoded variant back to its code), and returns the
`InvalidValue` error for code 18 and every other unlisted code; a layer
whose effective blend code is 18 fails `ProcreateIRLayer::load` with
`InvalidValue`, and consequently no successfully assembled document
contains a layer dictionary whose effective blend code is 18. -/
theorem C4_blend_codes (sz : Size) :
    (∀ n ∈ listedBlendCodes, ∃ b, BlendingMode.from_u32 n = .ok b ∧ b.to_u32 = n) ∧
    BlendingMode.from_u32 18 = .error .InvalidValue ∧
    (∀ n : Nat, n ∉ listedBlendCodes → BlendingMode.from_u32 n = .error .InvalidValue) ∧
    (∀ (d : IRLayerData) (c : Nat), (∃ u, d.uuidFetch = .ok u) → d.tiles = .ok () →
      effectiveBlendCode d.extendedBlend d.blend = 18 →
      (ProcreateIRLayer.load sz d c).1 = .error .InvalidValue) ∧
    (∀ (cf : Except NsArchiveError IRLayerData) (tree : List IRHierarchy)
      (doc : ProcreateFile), ProcreateFile.from_ns sz cf tree = .ok doc →
      ∀ d ∈ layerDatasList tree, effectiveBlendCode d.extendedBlend d.blend ≠ 18) := by
  refine ⟨?_, rfl, ?_, ?_, ?_⟩
  · intro n hn
    fin_cases hn <;> exact ⟨_, rfl, rfl⟩
  · intro n h
    by_cases h27 : n < 27
    · interval_cases n <;> first | (exfalso; exact h (by decide)) | rfl
    · obtain ⟨m, rfl⟩ : ∃ m, n = m + 27 := ⟨n - 27, by omega⟩
      rfl
  · rintro d c ⟨u, hu⟩ ht h18
    unfold ProcreateIRLayer.load
    rw [hu, ht, h18]
    rfl
  · rintro cf tree doc hopen d hd h18
    obtain ⟨irc, hcf, children, hl, _, _⟩ := from_ns_ok sz cf tree doc hopen
    rcases hl2 : loadList sz tree (ProcreateIRLayer.load sz irc 0).2 with ⟨r, c3⟩
    have hr : r = .ok children := by rw [hl2] at hl; exact hl
    subst hr
    obtain ⟨b, hb⟩ := loadList_blend_listed sz tree _ children c3 hl2 d hd
    rw [h18] at hb
    exact Except.noConfusion hb

/-- C4 witness: the amended theorem applied at concrete inputs — code 27 is
unlisted and decodes to `InvalidValue`, and a concrete layer dictionary
with `extendedBlend = 18` fails its load with `InvalidValue`. -/
theorem C4_blend_codes_witness :
    BlendingMode.from_u32 27 = .error .InvalidValue ∧
    (ProcreateIRLayer.load ⟨128, 128⟩
      { uuidFetch := .ok "aaaaaaaa", tiles := .ok (), extendedBlend := some 18,
        blend := 0, clipped := false, hidden := false, name := none,
        opacity := 1, version := 1 } 0).1 = .error .InvalidValue := by
  constructor
  · exact (C4_blend_codes ⟨128, 128⟩).2.2.1 27 (by decide)
  · exact (C4_blend_codes ⟨128, 128⟩).2.2.2.1 _ 0 ⟨"aaaaaaaa", rfl⟩ rfl rfl

/-- C7 counterexample: a layer dictionary with no `extendedBlend` and
`blend = 21` does not decode to `LinearLight` (code 21 is `VividLight`;
`LinearLight` is 22). -/
theorem C7_counterexample :
    BlendingMode.from_u32 (effectiveBlendCode none 21) ≠ .ok .LinearLight := by
  decide

/-- C7 (amended): the blend code is read from `extendedBlend` when the key
is present and otherwise from `blend`; a layer dictionary with no
`extendedBlend` and `blend = 21` decodes to `VividLight` (and `blend = 22`
to `LinearLight`). -/
theorem C7_blend_fallback :
    (∀ x b : Nat, effectiveBlendCode (some x) b = x) ∧
    (∀ b : Nat, effectiveBlendCode none b = b) ∧
    BlendingMode.from_u32 (effectiveBlendCode none 21) = .ok .VividLight ∧
    BlendingMode.from_u32 (effectiveBlendCode none 22) = .ok .LinearLight :=
  ⟨fun _ _ => rfl, fun _ => rfl, rfl, rfl⟩

/-! ## Flattener claims -/

theorem visitLayerNoCheck_mask (l : SilicaLayer) (s s' : FlattenState)
    (h : visitLayerNoCheck l s = some s') :
    s'.2 = s.2 ∨ s'.2 = some (l.image, l) := by
  unfold visitLayerNoCheck at h
  rcases hc : l.clipped with _ | _ <;> rw [hc] at h
  · simp only [Bool.not_false, if_true, Bool.false_eq_true, if_false,
      Option.some.injEq] at h
    subst h
    right
    rfl
  · simp only [Bool.not_true, Bool.false_eq_true, if_false, if_true] at h
    rcases hms : s.2 with _ | ⟨m, ml⟩ <;> rw [hms] at h
    · cases h
    · simp only [Option.some.injEq] at h
      subst h
      left
      rfl

theorem visitLayer_eq_noCheck (l : SilicaLayer) (s : FlattenState) (hm : maskOk s.2) :
    visitLayer l s = visitLayerNoCheck l s := by
  have hguard : (match s.2 with
      | some (_, mask_layer) => l.clipped && mask_layer.hidden
      | none => false) = false := by
    rcases hms : s.2 with _ | ⟨m, ml⟩
    · rfl
    · have hh : ml.hidden = false := hm (m, ml) hms
      simp only [hh, Bool.and_false]
  show (if (match s.2 with
      | some (_, mask_layer) => l.clipped && mask_layer.hidden
      | none => false) then some s
    else visitLayerNoCheck l s) = visitLayerNoCheck l s
  rw [hguard]
  simp

mutual

theorem innerChild_eq_noCheck (x : SilicaHierarchy) (s : FlattenState) (hm : maskOk s.2) :
    innerChild x s = innerChildNoCheck x s ∧
      ∀ s', innerChild x s = some s' → maskOk s'.2 := by
  match x with
  | .Layer l =>
    rcases hh : l.hidden with _ | _
    · have he : innerChild (.Layer l) s = visitLayer l s := by
        show (if l.hidden then some s else visitLayer l s) = visitLayer l s
        rw [hh]; simp
      have henc : innerChildNoCheck (.Layer l) s = visitLayerNoCheck l s := by
        show (if l.hidden then some s else visitLayerNoCheck l s) = visitLayerNoCheck l s
        rw [hh]; simp
      have hv := visitLayer_eq_noCheck l s hm
      refine ⟨by rw [he, henc, hv], ?_⟩
      intro s' hs'
      rw [he, hv] at hs'
      rcases visitLayerNoCheck_mask l s s' hs' with h2 | h2
      · intro p hp
        exact hm p (h2 ▸ hp)
      · intro p hp
        rw [h2] at hp
        cases hp
        exact hh
    · have he : innerChild (.Layer l) s = some s := by
        show (if l.hidden then some s else visitLayer l s) = some s
        rw [hh]; simp
      have henc : innerChildNoCheck (.Layer l) s = some s := by
        show (if l.hidden then some s else visitLayerNoCheck l s) = some s
        rw [hh]; simp
      refine ⟨by rw [he, henc], ?_⟩
      intro s' hs'
      rw [he] at hs'
      cases hs'
      exact hm
  | .Group ghidden gchildren gname =>
    cases ghidden with
    | false =>
      have ih := innerRev_eq_noCheck gchildren s hm
      exact ⟨ih.1, fun s' hs' => ih.2 s' hs'⟩
    | true =>
      refine ⟨rfl, ?_⟩
      intro s' hs'
      have h2 : some s = some s' := hs'
      injection h2 with h3
      subst h3
      exact hm

theorem innerRev_eq_noCheck (xs : List SilicaHierarchy) (s : FlattenState) (hm : maskOk s.2) :
    innerRev xs s = innerRevNoCheck xs s ∧
      ∀ s', innerRev xs s = some s' → maskOk s'.2 := by
  match xs with
  | [] =>
    refine ⟨rfl, ?_⟩
    intro s' hs'
    have h2 : some s = some s' := hs'
    injection h2 with h3
    subst h3
    exact hm
  | x :: xs =>
    have ih := innerRev_eq_noCheck xs s hm
    have hstep : innerRev (x :: xs) s = (innerRev xs s).bind (innerChild x) := rfl
    have hstepnc : innerRevNoCheck (x :: xs) s =
        (innerRevNoCheck xs s).bind (innerChildNoCheck x) := rfl
    rcases h1 : innerRev xs s with _ | s1
    · refine ⟨?_, ?_⟩
      · rw [hstep, hstepnc, ← ih.1, h1]
        rfl
      · intro s' hs'
        rw [hstep, h1] at hs'
        cases hs'
    · have hm1 := ih.2 s1 h1
      have ihx := innerChild_eq_noCheck x s1 hm1
      refine ⟨?_, ?_⟩
      · rw [hstep, hstepnc, ← ih.1, h1]
        exact ihx.1
      · intro s' hs'
        rw [hstep, h1] at hs'
        exact ihx.2 s' hs'

end

/-- C8: every layer stored in the current-mask slot was stored while being
visited as a visible layer, so the branch skipping a visible clipped layer
because the current mask layer is hidden is never taken: the flattener is
extensionally equal to the same function with that hidden-mask check
removed. -/
theorem C8_hidden_mask_check_dead (g : SilicaGroup) :
    App.linearize_silica_layers g = linearizeNoHiddenMaskCheck g := by
  unfold App.linearize_silica_layers linearizeNoHiddenMaskCheck
  rw [(innerRev_eq_noCheck g.children ([], none) (fun p hp => by cases hp)).1]

/-- C1 counterexample: for the group whose children are, in serialized
order, visible non-clipped `A`, visible clipped `B`, visible clipped `C`,
flattening does not emit three records — the reverse traversal visits `C`
first, finds no current mask, and aborts on the `unwrap()` (result
`none`). -/
theorem C1_counterexample :
    App.linearize_silica_layers
      ⟨false, [.Layer layerAex, .Layer layerBex, .Layer layerCex], none⟩ = none := rfl

/-- C1 (amended): for every layer group whose children are, in serialized
order, a visible clipped layer `B`, a visible clipped layer `C`, and a
visible non-clipped layer `A` (the mask layer serialized last, matching the
reverse traversal), flattening emits exactly three records, with `B`'s and
`C`'s records clipped to `A`'s image slot. -/
theorem C1_clip_chain (A B C : SilicaLayer) (gname : Option String)
    (hA : A.clipped = false) (hAh : A.hidden = false)
    (hB : B.clipped = true) (hBh : B.hidden = false)
    (hC : C.clipped = true) (hCh : C.hidden = false) :
    App.linearize_silica_layers ⟨false, [.Layer B, .Layer C, .Layer A], gname⟩ =
      some [⟨A.image, none, A.opacity, A.blend⟩,
            ⟨C.image, some A.image, C.opacity, C.blend⟩,
            ⟨B.image, some A.image, B.opacity, B.blend⟩] := by
  simp only [App.linearize_silica_layers, innerRev, innerChild, visitLayer,
    hA, hAh, hB, hBh, hC, hCh]
  simp [hA, hAh, hB, hBh, hC, hCh]

/-- C1 witness: the amended theorem applied to the three concrete layers
with the mask layer serialized last. -/
theorem C1_clip_chain_witness :
    App.linearize_silica_layers
      ⟨false, [.Layer layerBex, .Layer layerCex, .Layer layerAex], none⟩ =
      some [⟨layerAex.image, none, layerAex.opacity, layerAex.blend⟩,
            ⟨layerCex.image, some layerAex.image, layerCex.opacity, layerCex.blend⟩,
            ⟨layerBex.image, some layerAex.image, layerBex.opacity, layerBex.blend⟩] :=
  C1_clip_chain layerAex layerBex layerCex none rfl rfl rfl rfl rfl rfl

/-- C2: evaluating the flattener at the degenerate input — a group whose
only child is a visible clipped layer, with no non-clipped visible layer
having established a mask — the `mask_layer.unwrap()` in the record
construction aborts (`none` in the model): the flattener is not total,
contradicting the claim that it must not crash. -/
theorem C2_clipped_without_mask_aborts :
    App.linearize_silica_layers ⟨false, [.Layer clippedNoMaskLayer], none⟩ = none := rfl

/-! ## Document-assembly claims -/

/-- C5 counterexample: an error obtaining the `composite` entry of the root
dictionary (a missing key) is not swallowed — `fetch(...)?` propagates it
and the open fails, contradicting the claim that the open operation never
fails because of the composite layer. -/
theorem C5_counterexample :
    ProcreateFile.from_ns docSizeEx (.error (.MissingKey "composite")) [] =
      .error (.NsArchiveError (.MissingKey "composite")) := rfl

/-- C5 (amended): only errors arising while *loading* the composite layer
(after a successful fetch of the `composite` entry) are swallowed, the
document's composite field becoming `None`; an error fetching the
`composite` entry itself propagates through the `?` and fails the open. -/
theorem C5_composite_load_swallowed (sz : Size) (irc : IRLayerData)
    (tree : List IRHierarchy) (e : ProcreateError)
    (hload : (ProcreateIRLayer.load sz irc 0).1 = .error e)
    (children : List SilicaHierarchy)
    (hok : (loadList sz tree (ProcreateIRLayer.load sz irc 0).2).1 = .ok children) :
    ProcreateFile.from_ns sz (.ok irc) tree =
      .ok { composite := none,
            layers := { hidden := false, children := children,
                        name := some "Root Layer" } } := by
  have hstep : ProcreateFile.from_ns sz (.ok irc) tree =
      assembleDoc (ProcreateIRLayer.load sz irc 0).1
        (loadList sz tree (ProcreateIRLayer.load sz irc 0).2).1 := rfl
  rw [hstep, hload, hok]
  rfl

/-- C5 witness: the amended theorem applied to a composite whose tile
decode fails — the open succeeds with `composite = None`. -/
theorem C5_composite_load_swallowed_witness :
    ProcreateFile.from_ns docSizeEx (.ok irFailTilesLayer) [] =
      .ok { composite := none,
            layers := { hidden := false, children := [],
                        name := some "Root Layer" } } :=
  C5_composite_load_swallowed docSizeEx irFailTilesLayer [] .LzoError rfl [] rfl

/-- C9: whenever the root dictionary's `composite` entry decodes as a layer
(the document's composite field is `Some`), the composite was assigned
image slot 0 — its load ran first on the shared counter — and the layers of
the document tree receive exactly the slots `1, …, total_layer_count`. -/
theorem C9_composite_slot_zero (sz : Size) (cf : Except NsArchiveError IRLayerData)
    (tree : List IRHierarchy) (doc : ProcreateFile) (compLayer : SilicaLayer)
    (h : ProcreateFile.from_ns sz cf tree = .ok doc)
    (hc : doc.composite = some compLayer) :
    compLayer.image = 0 ∧
      slotsList doc.layers.children = List.range' 1 (countLayerList tree) := by
  obtain ⟨irc, hcf, children, hl, hlay, hcomp⟩ := from_ns_ok sz cf tree doc h
  rw [hcomp] at hc
  unfold compositeOf at hc
  generalize hres : (ProcreateIRLayer.load sz irc 0).1 = cr at hc
  rcases cr with e | l
  · cases hc
  · injection hc with hc
    subst hc
    obtain ⟨him, h2, _⟩ := load_layer_ok sz irc 0 l (by rw [hres])
    refine ⟨him, ?_⟩
    rw [h2] at hl
    rcases hl2 : loadList sz tree 1 with ⟨r, c3⟩
    have hr : r = .ok children := by rw [hl2] at hl; exact hl
    subst hr
    obtain ⟨hs, _⟩ := loadList_slots sz tree 1 children c3 hl2
    rw [hlay]
    exact hs
/-- C9 witness: the theorem applied to a concrete document with one
successfully loading composite and one tree layer. -/
theorem C9_composite_slot_zero_witness :
    compositeLoadedEx.image = 0 ∧
      slotsList (ProcreateFile.mk (some compositeLoadedEx)
          ⟨false, [.Layer layerLoadedEx], some "Root Layer"⟩).layers.children =
        List.range' 1 (countLayerList [.Layer irLayerEx]) :=
  C9_composite_slot_zero docSizeEx (.ok irCompositeEx) [.Layer irLayerEx]
    (ProcreateFile.mk (some compositeLoadedEx)
      ⟨false, [.Layer layerLoadedEx], some "Root Layer"⟩)
    compositeLoadedEx rfl rfl

/-- C3 counterexample: a successfully loaded document whose composite entry
decodes as a layer assigns its single tree layer slot 1, not slot 0 — the
set of slots held by the document's layers is `{1}`, not
`{0, …, total_layer_count − 1} = {0}`. -/
theorem C3_counterexample :
    (ProcreateFile.from_ns docSizeEx (.ok irCompositeEx) [.Layer irLayerEx]).map
        (fun doc => slotsList doc.layers.children) = .ok [1] ∧
      ([1] : List Nat) ≠ List.range' 0 1 := by
  constructor
  · rfl
  · decide

/-- C3 (amended): for every successfully loaded document, the slots
assigned to the document's layers are exactly the consecutive block
`{start, …, start + total_layer_count − 1}` with `start ≤ 1`: `start = 1`
whenever the composite claimed slot 0 (in particular whenever the
document's composite field is `Some`), and `start = 0` when the composite
claimed no slot, which is the only case in which the claimed set
`{0, …, total_layer_count − 1}` is obtained. -/
theorem C3_slot_assignment (sz : Size) (cf : Except NsArchiveError IRLayerData)
    (tree : List IRHierarchy) (doc : ProcreateFile)
    (h : ProcreateFile.from_ns sz cf tree = .ok doc) :
    ∃ start, start ≤ 1 ∧
      slotsList doc.layers.children = List.range' start (countLayerList tree) ∧
      (doc.composite.isSome = true → start = 1) := by
  obtain ⟨irc, hcf, children, hl, hlay, hcomp⟩ := from_ns_ok sz cf tree doc h
  refine ⟨(ProcreateIRLayer.load sz irc 0).2, ?_, ?_, ?_⟩
  · rcases load_layer_counter sz irc 0 with h0 | h1
    · omega
    · omega
  · rcases hl2 : loadList sz tree (ProcreateIRLayer.load sz irc 0).2 with ⟨r, c3⟩
    have hr : r = .ok children := by rw [hl2] at hl; exact hl
    subst hr
    obtain ⟨hs, _⟩ := loadList_slots sz tree _ children c3 hl2
    rw [hlay]
    exact hs
  · intro hsome
    rw [hcomp] at hsome
    unfold compositeOf at hsome
    generalize hres : (ProcreateIRLayer.load sz irc 0).1 = cr at hsome
    rcases cr with e | l
    · cases hsome
    · exact (load_layer_ok sz irc 0 l (by rw [hres])).2.1

/-- C3 witness: the amended theorem applied to the concrete document of the
counterexample — its slot block starts at 1 because the composite claimed
slot 0. -/
theorem C3_slot_assignment_witness :
    ∃ start, start ≤ 1 ∧
      slotsList (ProcreateFile.mk (some compositeLoadedEx)
          ⟨false, [.Layer layerLoadedEx], some "Root Layer"⟩).layers.children =
        List.range' start (countLayerList [.Layer irLayerEx]) ∧
      ((ProcreateFile.mk (some compositeLoadedEx)
          ⟨false, [.Layer layerLoadedEx], some "Root Layer"⟩).composite.isSome = true →
        start = 1) :=
  C3_slot_assignment docSizeEx (.ok irCompositeEx) [.Layer irLayerEx]
    (ProcreateFile.mk (some compositeLoadedEx)
      ⟨false, [.Layer layerLoadedEx], some "Root Layer"⟩) rfl


/-! ## Tile-grid claims -/

theorem wrap_add_sub_one (w t : Nat) (hw : 1 ≤ w) (hwt : w + t ≤ U32LIM) :
    subW (addW w t) 1 = w + t - 1 := by
  unfold addW subW U32LIM at *
  omega

theorem wrap_mul_eq (a b : Nat) (hab : a * b < U32LIM) : mulW a b = a * b := by
  unfold mulW U32LIM at *
  omega

theorem wrap_sub_eq (a b : Nat) (hba : b ≤ a) (ha : a < U32LIM) : subW a b = a - b := by
  unfold subW U32LIM at *
  omega

theorem ceil_div_facts (w t : Nat) (hw : 1 ≤ w) (ht : 1 ≤ t) :
    1 ≤ (w + t - 1) / t ∧ w ≤ ((w + t - 1) / t) * t ∧ ((w + t - 1) / t) * t ≤ w + t - 1 := by
  have hdm := Nat.div_add_mod (w + t - 1) t
  have hmod : (w + t - 1) % t < t := Nat.mod_lt _ (by omega)
  rw [Nat.mul_comm] at hdm
  refine ⟨?_, by omega, by omega⟩
  rcases Nat.eq_zero_or_pos ((w + t - 1) / t) with h0 | h1
  · rw [h0, Nat.zero_mul] at hdm
    omega
  · exact h1

theorem sum_if_last (c tt d : Nat) (hc : 1 ≤ c) :
    (∑ i in Finset.range c, (if i ≠ c - 1 then tt else tt - d)) = (c - 1) * tt + (tt - d) := by
  obtain ⟨k, rfl⟩ : ∃ k, c = k + 1 := ⟨c - 1, by omega⟩
  rw [Finset.sum_range_succ]
  have h1 : ∀ i ∈ Finset.range k, (if i ≠ (k + 1) - 1 then tt else tt - d) = tt := by
    intro i hi
    have hik : i ≠ (k + 1) - 1 := by
      have := Finset.mem_range.1 hi
      omega
    rw [if_pos hik]
  rw [Finset.sum_congr rfl h1, Finset.sum_const, Finset.card_range, smul_eq_mul]
  simp

theorem dim_facts (w t : Nat) (hw : 1 ≤ w) (ht : 1 ≤ t) (hwt : w + t ≤ U32LIM) :
    subW ((w + t - 1) / t) 1 = (w + t - 1) / t - 1 ∧
    subW (mulW ((w + t - 1) / t) t) w = ((w + t - 1) / t) * t - w ∧
    subW t (((w + t - 1) / t) * t - w) = t - (((w + t - 1) / t) * t - w) ∧
    1 ≤ (w + t - 1) / t ∧
    ((w + t - 1) / t) * t - w < t ∧
    w ≤ ((w + t - 1) / t) * t := by
  obtain ⟨hc1, hcw, hcub⟩ := ceil_div_facts w t hw ht
  have hclt : ((w + t - 1) / t) * t < U32LIM := by unfold U32LIM at *; omega
  have hmul : mulW ((w + t - 1) / t) t = ((w + t - 1) / t) * t := wrap_mul_eq _ _ hclt
  have hsub1 : subW (mulW ((w + t - 1) / t) t) w = ((w + t - 1) / t) * t - w := by
    rw [hmul]
    exact wrap_sub_eq _ _ hcw hclt
  have hdl : (w + t - 1) / t ≤ w + t - 1 := Nat.div_le_self _ _
  refine ⟨?_, hsub1, ?_, hc1, by omega, hcw⟩
  · exact wrap_sub_eq _ _ hc1 (by unfold U32LIM at *; omega)
  · exact wrap_sub_eq t _ (by omega) (by unfold U32LIM at *; omega)

/-- C6 counterexample: at width `4294967295` (the largest `u32`), height 70
and tile size 2, the `u32` expression `width + tile_size - 1` wraps around,
so the computed column count is 0 instead of the claimed
`⌈width / tile_size⌉ = 2147483648` (in a debug build the same expression
aborts on overflow instead — either way the claimed formula fails). -/
theorem C6_counterexample :
    (mkTilingData ⟨4294967295, 70⟩ 2).columns = 0 ∧
      (4294967295 + 2 - 1) / 2 = 2147483648 ∧ (0 : Nat) ≠ 2147483648 := by
  refine ⟨rfl, by norm_num, by decide⟩

/-- C6 (amended): for every width ≥ 1, height ≥ 1 and tile size ≥ 1 **whose
`u32` arithmetic does not overflow** (`width + tile_size ≤ 2^32` and
`height + tile_size ≤ 2^32`): columns = ⌈width/tile⌉ and
rows = ⌈height/tile⌉; `tile_size(col,row)` is `tile × tile` for non-edge
tiles; the last column's width is `tile − (columns·tile − width)` and the
last row's height is `tile − (rows·tile − height)`; and the per-column
widths sum to the width and the per-row heights to the height, so the
sub-rectangles tile the canvas exactly. -/
theorem C6_tile_grid (w h t : Nat) (T : TilingData) (hT : T = mkTilingData ⟨w, h⟩ t)
    (hw : 1 ≤ w) (hh : 1 ≤ h) (ht : 1 ≤ t)
    (hwt : w + t ≤ U32LIM) (hht : h + t ≤ U32LIM) :
    T.columns = (w + t - 1) / t ∧
    T.rows = (h + t - 1) / t ∧
    (∀ col row, col ≠ T.columns - 1 → row ≠ T.rows - 1 →
      T.tile_size col row = ⟨t, t⟩) ∧
    (∀ row, (T.tile_size (T.columns - 1) row).width = t - (T.columns * t - w)) ∧
    (∀ col, (T.tile_size col (T.rows - 1)).height = t - (T.rows * t - h)) ∧
    (∑ col in Finset.range T.columns, (T.tile_size col 0).width) = w ∧
    (∑ row in Finset.range T.rows, (T.tile_size 0 row).height) = h := by
  subst hT
  obtain ⟨ha1, ha2, ha3, ha4, ha5, ha6⟩ := dim_facts w t hw ht hwt
  obtain ⟨hb1, hb2, hb3, hb4, hb5, hb6⟩ := dim_facts h t hh ht hht
  have hcols : (mkTilingData ⟨w, h⟩ t).columns = (w + t - 1) / t := by
    show subW (addW w t) 1 / t = (w + t - 1) / t
    rw [wrap_add_sub_one w t hw hwt]
  have hrows : (mkTilingData ⟨w, h⟩ t).rows = (h + t - 1) / t := by
    show subW (addW h t) 1 / t = (h + t - 1) / t
    rw [wrap_add_sub_one h t hh hht]
  have hwidth : ∀ col row, ((mkTilingData ⟨w, h⟩ t).tile_size col row).width =
      (if col ≠ (w + t - 1) / t - 1 then t
       else t - (((w + t - 1) / t) * t - w)) := by
    intro col row
    show (if col ≠ subW ((mkTilingData ⟨w, h⟩ t).columns) 1 then t
          else subW t ((mkTilingData ⟨w, h⟩ t).diff.width)) = _
    have hdiffw : (mkTilingData ⟨w, h⟩ t).diff.width =
        ((w + t - 1) / t) * t - w := by
      show subW (mulW (subW (addW w t) 1 / t) t) w = _
      rw [wrap_add_sub_one w t hw hwt]
      exact ha2
    rw [hcols, hdiffw, ha1, ha3]
  have hheight : ∀ col row, ((mkTilingData ⟨w, h⟩ t).tile_size col row).height =
      (if row ≠ (h + t - 1) / t - 1 then t
       else t - (((h + t - 1) / t) * t - h)) := by
    intro col row
    show (if row ≠ subW ((mkTilingData ⟨w, h⟩ t).rows) 1 then t
          else subW t ((mkTilingData ⟨w, h⟩ t).diff.height)) = _
    have hdiffh : (mkTilingData ⟨w, h⟩ t).diff.height =
        ((h + t - 1) / t) * t - h := by
      show subW (mulW (subW (addW h t) 1 / t) t) h = _
      rw [wrap_add_sub_one h t hh hht]
      exact hb2
    rw [hrows, hdiffh, hb1, hb3]
  refine ⟨hcols, hrows, ?_, ?_, ?_, ?_, ?_⟩
  · intro col row h1 h2
    rw [hcols] at h1
    rw [hrows] at h2
    have hmk : (mkTilingData ⟨w, h⟩ t).tile_size col row =
        ⟨((mkTilingData ⟨w, h⟩ t).tile_size col row).width,
         ((mkTilingData ⟨w, h⟩ t).tile_size col row).height⟩ := rfl
    rw [hmk, hwidth col row, hheight col row, if_pos h1, if_pos h2]
  · intro row
    rw [hwidth, hcols]
    rw [if_neg (fun hne => hne rfl)]
  · intro col
    rw [hheight, hrows]
    rw [if_neg (fun hne => hne rfl)]
  · rw [hcols]
    calc (∑ col in Finset.range ((w + t - 1) / t),
            ((mkTilingData ⟨w, h⟩ t).tile_size col 0).width)
        = ∑ col in Finset.range ((w + t - 1) / t),
            (if col ≠ (w + t - 1) / t - 1 then t
             else t - (((w + t - 1) / t) * t - w)) :=
          Finset.sum_congr rfl (fun col _ => hwidth col 0)
      _ = ((w + t - 1) / t - 1) * t + (t - (((w + t - 1) / t) * t - w)) :=
          sum_if_last _ t _ ha4
      _ = w := by
          rw [Nat.sub_mul, Nat.one_mul]
          have hmt : t ≤ ((w + t - 1) / t) * t := Nat.le_mul_of_pos_left t ha4
          generalize hm : ((w + t - 1) / t) * t = m at ha5 ha6 hmt ⊢
          omega
  · rw [hrows]
    calc (∑ row in Finset.range ((h + t - 1) / t),
            ((mkTilingData ⟨w, h⟩ t).tile_size 0 row).height)
        = ∑ row in Finset.range ((h + t - 1) / t),
            (if row ≠ (h + t - 1) / t - 1 then t
             else t - (((h + t - 1) / t) * t - h)) :=
          Finset.sum_congr rfl (fun row _ => hheight 0 row)
      _ = ((h + t - 1) / t - 1) * t + (t - (((h + t - 1) / t) * t - h)) :=
          sum_if_last _ t _ hb4
      _ = h := by
          rw [Nat.sub_mul, Nat.one_mul]
          have hmt : t ≤ ((h + t - 1) / t) * t := Nat.le_mul_of_pos_left t hb4
          generalize hm : ((h + t - 1) / t) * t = m at hb5 hb6 hmt ⊢
          omega

/-- C6 witness: the amended theorem applied to the 100×70 canvas with tile
size 64 of spec scenario 2 (columns 2, rows 2, edge widths 36 and heights
6, sums 100 and 70). -/
theorem C6_tile_grid_witness :
    (mkTilingData ⟨100, 70⟩ 64).columns = (100 + 64 - 1) / 64 ∧
    (mkTilingData ⟨100, 70⟩ 64).rows = (70 + 64 - 1) / 64 ∧
    (∀ col row, col ≠ (mkTilingData ⟨100, 70⟩ 64).columns - 1 →
      row ≠ (mkTilingData ⟨100, 70⟩ 64).rows - 1 →
      (mkTilingData ⟨100, 70⟩ 64).tile_size col row = ⟨64, 64⟩) ∧
    (∀ row, ((mkTilingData ⟨100, 70⟩ 64).tile_size
        ((mkTilingData ⟨100, 70⟩ 64).columns - 1) row).width =
      64 - ((mkTilingData ⟨100, 70⟩ 64).columns * 64 - 100)) ∧
    (∀ col, ((mkTilingData ⟨100, 70⟩ 64).tile_size col
        ((mkTilingData ⟨100, 70⟩ 64).rows - 1)).height =
      64 - ((mkTilingData ⟨100, 70⟩ 64).rows * 64 - 70)) ∧
    (∑ col in Finset.range (mkTilingData ⟨100, 70⟩ 64).columns,
      ((mkTilingData ⟨100, 70⟩ 64).tile_size col 0).width) = 100 ∧
    (∑ row in Finset.range (mkTilingData ⟨100, 70⟩ 64).rows,
      ((mkTilingData ⟨100, 70⟩ 64).tile_size 0 row).height) = 70 :=
  C6_tile_grid 100 70 64 (mkTilingData ⟨100, 70⟩ 64) rfl (by decide) (by decide)
    (by decide) (by decide) (by decide)

end Mica
